import Mathlib

/-!
Verification of the FinancialLens core pipeline against its specification.

Each Python module relevant to the checked claims is shallowly embedded:
monetary values become rationals, Python dicts become association lists
(`Dict`), and the stateful hierarchy builder becomes explicit state passing
over an open-parent stack. Definitions mirror the source files
(`data_validator.py`, `hierarchy_manager.py`, `enrichment_engine.py`,
`financial_reclassifier.py`, `bilancio_parser.py`) statement by statement.
-/

namespace FinancialLens

/-! ## Validator tolerance check (`data_validator.py`, `_check_tolerance`) -/

/-- Tolerance configuration of `DataValidator.__init__`:
`tolerance_percentage`, `tolerance_minimum`, `immediate_success_threshold`. -/
structure ToleranceParams where
  tolerance_percentage : ℚ
  tolerance_minimum : ℚ
  immediate_success_threshold : ℚ

/-- Defaults from `DataValidator.__init__`: pct `0.01`, minimum `2.0`,
immediate success threshold `2.0`. -/
def defaultToleranceParams : ToleranceParams :=
  { tolerance_percentage := 1 / 100
    tolerance_minimum := 2
    immediate_success_threshold := 2 }

/-- Embedding of `DataValidator._check_tolerance(val1, val2, ref_val)`. -/
def check_tolerance (p : ToleranceParams) (val1 val2 ref_val : ℚ) : String × ℚ :=
  let diff := abs (val1 - val2)
  if ref_val = 0 then
    if diff > p.tolerance_minimum then ("failed", diff) else ("success", diff)
  else
    let tolerance := max (abs (ref_val * p.tolerance_percentage)) p.tolerance_minimum
    if diff ≤ p.immediate_success_threshold then ("success", diff)
    else if diff ≤ tolerance then ("success_with_tolerance", diff)
    else ("failed", diff)

/-- Modelled from the spec wording of the tolerance function (section 4.4):
`diff = |a − b|`; if `ref == 0`, success iff `diff ≤ minimumTolerance`, else
failed; otherwise `tolerance = max(|ref| × pct, minimumTolerance)`, success iff
`diff ≤ immediateSuccessThreshold`, else success_with_tolerance iff
`diff ≤ tolerance`, else failed. Used only to compare against the source
embedding `check_tolerance`. -/
def check_tolerance_specSide (p : ToleranceParams) (a b ref : ℚ) : String × ℚ :=
  let diff := abs (a - b)
  if ref = 0 then
    (if diff ≤ p.tolerance_minimum then "success" else "failed", diff)
  else
    let tolerance := max (abs ref * p.tolerance_percentage) p.tolerance_minimum
    if diff ≤ p.immediate_success_threshold then ("success", diff)
    else if diff ≤ tolerance then ("success_with_tolerance", diff)
    else ("failed", diff)

/-- Quality order on the three validation statuses: lower is better. -/
def statusLevel (s : String) : ℕ :=
  if s = "success" then 0 else if s = "success_with_tolerance" then 1 else 2

theorem fst_pair (s : String) (q : ℚ) : (s, q).1 = s := rfl

theorem statusLevel_success : statusLevel "success" = 0 := rfl

theorem statusLevel_swt : statusLevel "success_with_tolerance" = 1 := rfl

theorem statusLevel_failed : statusLevel "failed" = 2 := rfl

end FinancialLens

namespace FinancialLens

/-- **C1** The validator's tolerance check computes `diff = |a − b|` and
branches exactly as the spec describes (shown by agreement with the
spec-worded function whenever the configured percentage is nonnegative, as it
is for the default 1%), and with the default parameters the pair
Assets = 100000 / Liabilities = 100900 (reference Assets) yields
`("success_with_tolerance", 900)`. -/
theorem check_tolerance_matches_spec (p : ToleranceParams)
    (hpct : 0 ≤ p.tolerance_percentage) (a b ref : ℚ) :
    check_tolerance p a b ref = check_tolerance_specSide p a b ref ∧
    check_tolerance defaultToleranceParams 100000 100900 100000 =
      ("success_with_tolerance", 900) := by
  constructor
  · have habs : abs (ref * p.tolerance_percentage) = abs ref * p.tolerance_percentage := by
      rw [abs_mul, abs_of_nonneg hpct]
    simp only [check_tolerance, check_tolerance_specSide, habs]
    split_ifs <;> simp_all <;> linarith
  · norm_num [check_tolerance, defaultToleranceParams, abs_sub_comm, abs_of_nonneg]

/-- Witness for C1 at concrete inputs: the default parameters have a
nonnegative percentage, and both conjuncts evaluate. -/
theorem check_tolerance_matches_spec_witness :
    check_tolerance defaultToleranceParams 5 9 10 =
      check_tolerance_specSide defaultToleranceParams 5 9 10 :=
  (check_tolerance_matches_spec defaultToleranceParams
    (by norm_num [defaultToleranceParams]) 5 9 10).1

/-- **C8** Tolerance monotonicity: for a fixed reference and fixed parameters,
a smaller absolute difference never yields a worse status (success better than
success_with_tolerance better than failed). -/
theorem check_tolerance_monotone (p : ToleranceParams) (ref a₁ b₁ a₂ b₂ : ℚ)
    (h : abs (a₁ - b₁) < abs (a₂ - b₂)) :
    statusLevel (check_tolerance p a₁ b₁ ref).1 ≤
      statusLevel (check_tolerance p a₂ b₂ ref).1 := by
  simp only [check_tolerance]
  split_ifs <;>
    simp only [fst_pair, statusLevel_success, statusLevel_swt, statusLevel_failed] <;>
    first | omega | (exfalso; linarith)

/-- Witness for C8: diff 1 < diff 5 at reference 100 with default parameters. -/
theorem check_tolerance_monotone_witness :
    statusLevel (check_tolerance defaultToleranceParams 100 99 100).1 ≤
      statusLevel (check_tolerance defaultToleranceParams 100 95 100).1 :=
  check_tolerance_monotone defaultToleranceParams 100 100 99 100 95 (by norm_num)

/-! ## Python dictionaries of rational values

Insertion-ordered string-keyed maps. `dset` is Python `d[k] = v` (update in
place if the key exists, append otherwise), `dget` is `d.get(k, 0.0)`,
`dlookup` is `d[k]` as a partial lookup, `dmem` is `k in d`. -/

/-- A Python `dict[str, float]` as an insertion-ordered association list. -/
abbrev Dict := List (String × ℚ)

/-- `d.get(k, 0.0)`. -/
def dget : Dict → String → ℚ
  | [], _ => 0
  | p :: rest, k => if p.1 = k then p.2 else dget rest k

/-- Partial lookup `d[k]`. -/
def dlookup : Dict → String → Option ℚ
  | [], _ => none
  | p :: rest, k => if p.1 = k then some p.2 else dlookup rest k

/-- `k in d`. -/
def dmem : Dict → String → Bool
  | [], _ => false
  | p :: rest, k => p.1 = k || dmem rest k

/-- `d[k] = v`: replace the first binding of `k` in place, or append. -/
def dset : Dict → String → ℚ → Dict
  | [], k, v => [(k, v)]
  | p :: rest, k, v => if p.1 = k then (k, v) :: rest else p :: dset rest k v

theorem dget_dset_self (m : Dict) (k : String) (v : ℚ) : dget (dset m k v) k = v := by
  induction m with
  | nil => simp [dget, dset]
  | cons p rest ih =>
    by_cases h : p.1 = k <;> simp [dget, dset, h, ih]

theorem dget_dset_ne (m : Dict) (k : String) (v : ℚ) (k' : String) (h : k' ≠ k) :
    dget (dset m k v) k' = dget m k' := by
  have h' : ¬ (k = k') := fun hk => h hk.symm
  induction m with
  | nil => simp [dget, dset, h']
  | cons p rest ih =>
    by_cases hp : p.1 = k
    · simp [dget, dset, hp, h']
    · by_cases hp' : p.1 = k' <;> simp [dget, dset, hp, hp', h, h', ih]

theorem dlookup_dset_self (m : Dict) (k : String) (v : ℚ) :
    dlookup (dset m k v) k = some v := by
  induction m with
  | nil => simp [dlookup, dset]
  | cons p rest ih =>
    by_cases h : p.1 = k <;> simp [dlookup, dset, h, ih]

theorem dlookup_dset_ne (m : Dict) (k : String) (v : ℚ) (k' : String) (h : k' ≠ k) :
    dlookup (dset m k v) k' = dlookup m k' := by
  have h' : ¬ (k = k') := fun hk => h hk.symm
  induction m with
  | nil => simp [dlookup, dset, h']
  | cons p rest ih =>
    by_cases hp : p.1 = k
    · simp [dlookup, dset, hp, h']
    · by_cases hp' : p.1 = k' <;> simp [dlookup, dset, hp, hp', h, h', ih]

/-! ## Hierarchy builder (`hierarchy_manager.py`) -/

/-- A classified financial item dict as read by `HierarchyManager`: canonical
name, value, and the enrichment flag carried by enriched nodes (the stack
finalization in the source never consults the flag). -/
structure FinItem where
  voce_canonica : String
  valore : ℚ
  enriched_from_ni : Bool
deriving DecidableEq

/-- An entry of `context.parent_stack`: an open parent item together with its
temporary `_children_buffer`. -/
structure OpenParent where
  item : FinItem
  buffer : List FinItem
deriving DecidableEq

/-- Embedding of `_process_completed_parent`: with a non-empty children buffer
and a zero parent value, the parent's value becomes the sum of the buffered
children's values; the temporary buffer is deleted (the result is a bare
item). -/
def process_completed_parent (p : OpenParent) : FinItem :=
  if p.buffer ≠ [] ∧ p.item.valore = 0 then
    { p.item with valore := (p.buffer.map FinItem.valore).sum }
  else p.item

/-- A popped child is the same dict object as the last entry appended to the
enclosing parent's children buffer, so mutating its value during finalization
is visible there; in the pure model the finalized item replaces the last
buffer slot of the new stack top. -/
def reflect_in_parent (fin : FinItem) : List OpenParent → List OpenParent
  | [] => []
  | q :: rest => { q with buffer := q.buffer.dropLast ++ [fin] } :: rest

theorem reflect_in_parent_length (fin : FinItem) (l : List OpenParent) :
    (reflect_in_parent fin l).length = l.length := by
  cases l <;> simp [reflect_in_parent]

/-- Record one popped-and-finalized parent in front of the finalization trace
of the remaining pops. -/
def record_pop (fin : FinItem) (r : List OpenParent × List FinItem) :
    List OpenParent × List FinItem :=
  (r.1, fin :: r.2)

/-- The while loop of `process_financial_item`: pop and finalize open parents
while the expected parent name differs from the stack top's canonical name
(the expected name is `none` when the schema declares no parent, which never
equals a string, exactly as Python's `None != str`). Returns the remaining
stack and the finalized parents in pop order. -/
def pop_until (expected : Option String) : List OpenParent → List OpenParent × List FinItem
  | [] => ([], [])
  | top :: rest =>
    if expected = some top.item.voce_canonica then (top :: rest, [])
    else
      record_pop (process_completed_parent top)
        (pop_until expected (reflect_in_parent (process_completed_parent top) rest))
termination_by st => st.length
decreasing_by simp [reflect_in_parent_length]

/-- The schema-derived configuration `HierarchyManager` reads: the canonical
name → expected parent map (`parent_map.get`) and the "has `dettaglio` in the
schema" test of `_get_config_node`. -/
structure HierarchyConfig where
  parent_map : String → Option String
  is_potential_parent : String → Bool

/-- Embedding of `HierarchyManager.process_financial_item`: pop mismatched
parents, append the item to the new top's children buffer, then push the item
as a new open parent when the schema declares sub-items for it. Returns the
new stack and the parents finalized during the context switch. -/
def process_financial_item (cfg : HierarchyConfig) (item : FinItem)
    (stack : List OpenParent) : List OpenParent × List FinItem :=
  let r := pop_until (cfg.parent_map item.voce_canonica) stack
  let st2 := match r.1 with
    | [] => ([] : List OpenParent)
    | top :: rest => { top with buffer := top.buffer ++ [item] } :: rest
  let st3 := if cfg.is_potential_parent item.voce_canonica then ⟨item, []⟩ :: st2 else st2
  (st3, r.2)

/-- Embedding of `finalize_hierarchy_context`: pop and finalize every
remaining stack entry. -/
def finalize_hierarchy_context : List OpenParent → List OpenParent × List FinItem
  | [] => ([], [])
  | top :: rest =>
    record_pop (process_completed_parent top)
      (finalize_hierarchy_context (reflect_in_parent (process_completed_parent top) rest))
termination_by st => st.length
decreasing_by simp [reflect_in_parent_length]

/-- Feed a stream of classified items through `process_financial_item`,
collecting every parent finalized along the way (the main parsing loop of
`bilancio_parser._process_financial_statements`). -/
def run_stream (cfg : HierarchyConfig) : List FinItem → List OpenParent →
    List OpenParent × List FinItem
  | [], st => (st, [])
  | it :: rest, st =>
    ((run_stream cfg rest (process_financial_item cfg it st).1).1,
      (process_financial_item cfg it st).2 ++
        (run_stream cfg rest (process_financial_item cfg it st).1).2)

theorem pop_until_length (expected : Option String) (st : List OpenParent) :
    (pop_until expected st).1.length + (pop_until expected st).2.length = st.length := by
  induction st using pop_until.induct expected with
  | case1 => simp [pop_until]
  | case2 top rest h => simp [pop_until, h]
  | case3 top rest h ih =>
    rw [pop_until]
    simp only [if_neg h, record_pop]
    simp only [List.length_cons]
    rw [reflect_in_parent_length] at ih
    omega

theorem pop_until_shape (expected : Option String) (st : List OpenParent) :
    (pop_until expected st).1 = [] ∨
      ∃ top rest, (pop_until expected st).1 = top :: rest ∧
        expected = some top.item.voce_canonica := by
  induction st using pop_until.induct expected with
  | case1 => simp [pop_until]
  | case2 top rest h => right; exact ⟨top, rest, by simp [pop_until, h], h⟩
  | case3 top rest h ih =>
    rw [pop_until]
    simpa [if_neg h, record_pop] using ih

theorem finalize_fst (st : List OpenParent) :
    (finalize_hierarchy_context st).1 = [] := by
  induction st using finalize_hierarchy_context.induct with
  | case1 => simp [finalize_hierarchy_context]
  | case2 top rest ih =>
    rw [finalize_hierarchy_context]
    simpa [record_pop] using ih

theorem finalize_snd_length (st : List OpenParent) :
    (finalize_hierarchy_context st).2.length = st.length := by
  induction st using finalize_hierarchy_context.induct with
  | case1 => simp [finalize_hierarchy_context]
  | case2 top rest ih =>
    rw [finalize_hierarchy_context]
    simp only [record_pop, List.length_cons]
    rw [ih, reflect_in_parent_length]

theorem process_financial_item_length (cfg : HierarchyConfig) (item : FinItem)
    (st : List OpenParent) :
    (process_financial_item cfg item st).1.length +
        (process_financial_item cfg item st).2.length =
      st.length + (if cfg.is_potential_parent item.voce_canonica then 1 else 0) := by
  have hlen := pop_until_length (cfg.parent_map item.voce_canonica) st
  unfold process_financial_item
  rcases hshape : (pop_until (cfg.parent_map item.voce_canonica) st).1 with _ | ⟨top, rest⟩ <;>
    rw [hshape] at hlen <;>
    by_cases hp : cfg.is_potential_parent item.voce_canonica <;>
    simp [hshape, hp] at hlen ⊢ <;> omega

theorem run_stream_length (cfg : HierarchyConfig) (items : List FinItem)
    (st : List OpenParent) :
    (run_stream cfg items st).1.length + (run_stream cfg items st).2.length =
      st.length +
        (items.filter (fun it => cfg.is_potential_parent it.voce_canonica)).length := by
  induction items generalizing st with
  | nil => simp [run_stream]
  | cons it rest ih =>
    have h1 := process_financial_item_length cfg it st
    have h2 := ih (process_financial_item cfg it st).1
    by_cases hp : cfg.is_potential_parent it.voce_canonica <;>
      simp [run_stream, List.filter_cons, hp] at h1 ⊢ <;> omega

/-- The configuration of scenario 5 from the spec: P is the only potential
parent; C1 and C2 declare P as parent; P and X sit at the section root. -/
def scenario_cfg : HierarchyConfig :=
  { parent_map := fun n => if n = "C1" ∨ n = "C2" then some "P" else none
    is_potential_parent := fun n => n == "P" }

/-- The item stream of scenario 5: P(0), C1(40), C2(60), then X whose
expected parent is the section root. -/
def scenario_items : List FinItem :=
  [⟨"P", 0, false⟩, ⟨"C1", 40, false⟩, ⟨"C2", 60, false⟩, ⟨"X", 5, false⟩]

/-! ## Reclassification mapping (`financial_reclassifier.py`, `_map_financial_items`) -/

/-! ## Reclassification mapping (`financial_reclassifier.py`, `_map_financial_items`) -/

/-- One row of the loaded mapping configuration (`_load_mapping_configuration`):
the canonical source name, the reclassification target
(`Mappa a questa Voce Riclassificata`, `none` for a NaN cell), the operation
cell, and the declared child canonical names. -/
structure MappingRule where
  voce : String
  map_to : Option String
  operation : Option String
  children : List String

/-- One iteration of the rule loop in `_map_financial_items`, acting on the
`reclassified_totals` accumulator (audit-detail strings are not modelled). -/
def map_rule_step (flat : Dict) (totals : Dict) (r : MappingRule) : Dict :=
  match r.map_to with
  | none => totals
  | some target =>
    if target = "NON APPLICABILE" then totals
    else if ¬ dmem flat r.voce then totals
    else if r.children.any (fun c => dmem flat c) then totals
    else
      let value := dget flat r.voce
      match r.operation with
      | none => totals
      | some op =>
        if op.trim = "+" then dset totals target (dget totals target + value)
        else if op.trim = "-" then dset totals target (dget totals target - value)
        else totals

/-- Embedding of `_map_financial_items` restricted to the bucket totals it
returns: fold the rule list in configuration order over an empty dict. -/
def map_financial_items (rules : List MappingRule) (flat : Dict) : Dict :=
  rules.foldl (map_rule_step flat) []

theorem map_rule_step_skip_of_child_present (flat : Dict) (r : MappingRule)
    (h : ∃ c ∈ r.children, dmem flat c = true) (totals : Dict) :
    map_rule_step flat totals r = totals := by
  obtain ⟨c, hc, hmem⟩ := h
  unfold map_rule_step
  match hm : r.map_to with
  | none => rfl
  | some target =>
    have hany : r.children.any (fun c => dmem flat c) = true :=
      List.any_eq_true.mpr ⟨c, hc, hmem⟩
    simp [hany]

/-! ## Consolidated data map (`bilancio_parser.py`, `_build_data_map`) -/

/-- One iteration of the `_build_data_map` loop as a map update: store the
item under its canonical name if the name is absent, or if the new item has
non-zero value while the stored one has zero value. -/
def data_map_step (m : String → Option FinItem) (item : FinItem) : String → Option FinItem :=
  fun k =>
    if k = item.voce_canonica then
      match m item.voce_canonica with
      | none => some item
      | some old => if item.valore ≠ 0 ∧ old.valore = 0 then some item else some old
    else m k

/-- Embedding of `BilancioParser._build_data_map`: fold the flat item list
over an empty dict (modelled as its lookup function). -/
def build_data_map (flat : List FinItem) : String → Option FinItem :=
  flat.foldl data_map_step (fun _ => none)

/-- The first item in the list carrying the given canonical name and a
non-zero value. -/
def first_nonzero : List FinItem → String → Option FinItem
  | [], _ => none
  | i :: rest, k =>
    if i.voce_canonica = k ∧ i.valore ≠ 0 then some i else first_nonzero rest k

/-- The first item in the list carrying the given canonical name. -/
def first_with_key : List FinItem → String → Option FinItem
  | [], _ => none
  | i :: rest, k => if i.voce_canonica = k then some i else first_with_key rest k

/-- The entry the claim predicts for a canonical name: the first item with
that name, unless that item's value is zero and a later duplicate has non-zero
value — then the first such non-zero duplicate. -/
def kept_entry (flat : List FinItem) (k : String) : Option FinItem :=
  match first_nonzero flat k with
  | some n => some n
  | none => first_with_key flat k

/-- What the fold keeps for a key given the entry currently stored for it. -/
def kept_from (cur : Option FinItem) (flat : List FinItem) (k : String) : Option FinItem :=
  match cur with
  | none => kept_entry flat k
  | some old =>
    if old.valore = 0 then
      match first_nonzero flat k with
      | some n => some n
      | none => some old
    else some old

theorem foldl_data_map (flat : List FinItem) :
    ∀ (m : String → Option FinItem) (k : String),
      (flat.foldl data_map_step m) k = kept_from (m k) flat k := by
  induction flat with
  | nil =>
    intro m k
    rcases hm : m k with _ | old
    · simp [kept_from, kept_entry, first_nonzero, first_with_key, hm]
    · by_cases hz : old.valore = 0 <;> simp [kept_from, first_nonzero, hz, hm]
  | cons it rest ih =>
    intro m k
    rw [List.foldl_cons, ih]
    by_cases hk : k = it.voce_canonica
    · have hv : it.voce_canonica = k := hk.symm
      rcases hm : m k with _ | old
      · have hstep : (data_map_step m it) k = some it := by
          simp [data_map_step, hv, hm]
        rw [hstep]
        by_cases hz : it.valore = 0
        · simp only [kept_from, kept_entry, first_nonzero, first_with_key, hv, hz]
          rcases hfz : first_nonzero rest k with _ | n <;> simp [hfz, hz]
        · simp [kept_from, kept_entry, first_nonzero, hv, hz]
      · by_cases hoz : old.valore = 0 <;> by_cases hz : it.valore = 0
        · have hstep : (data_map_step m it) k = some old := by
            simp [data_map_step, hv, hm, hz]
          rw [hstep]
          simp [kept_from, first_nonzero, hoz, hz]
        · have hstep : (data_map_step m it) k = some it := by
            simp [data_map_step, hv, hm, hz, hoz]
          rw [hstep]
          simp [kept_from, first_nonzero, hv, hz, hoz]
        · have hstep : (data_map_step m it) k = some old := by
            simp [data_map_step, hv, hm, hoz]
          rw [hstep]
          simp [kept_from, hoz]
        · have hstep : (data_map_step m it) k = some old := by
            simp [data_map_step, hv, hm, hoz]
          rw [hstep]
          simp [kept_from, hoz]
    · have hne : ¬ (it.voce_canonica = k) := fun h => hk h.symm
      have hstep : (data_map_step m it) k = m k := by
        simp [data_map_step, hk]
      rw [hstep]
      rcases hm : m k with _ | old
      · simp [kept_from, kept_entry, first_nonzero, first_with_key, hne]
      · by_cases hoz : old.valore = 0 <;> simp [kept_from, first_nonzero, hoz, hne]

theorem first_nonzero_of_first_with_key (flat : List FinItem) (k : String)
    (i : FinItem) (hfirst : first_with_key flat k = some i) (hnz : i.valore ≠ 0) :
    first_nonzero flat k = some i := by
  induction flat with
  | nil => simp [first_with_key] at hfirst
  | cons j rest ih =>
    by_cases hj : j.voce_canonica = k
    · simp only [first_with_key, if_pos hj, Option.some.injEq] at hfirst
      subst hfirst
      simp [first_nonzero, hj, hnz]
    · simp only [first_with_key, if_neg hj] at hfirst
      simp only [first_nonzero, hj, false_and, if_neg, not_false_iff]
      exact ih hfirst

/-! ## Enrichment integration (`enrichment_engine.py`, `_integrate_ni_data`) -/

/-- `NITableData`: one matched supplementary-table row. -/
structure NIRow where
  voce_canonica : String
  voce_originale : String
  valore : ℚ
  valore_entro : ℚ
  valore_oltre : ℚ
deriving DecidableEq

/-- A temporal-breakdown grandchild built for a synthetic detail node. -/
structure ScadenzaChild where
  voce_canonica : String
  valore : ℚ
deriving DecidableEq

/-- A synthetic detail node built by `_integrate_ni_data` for one matched row
(the `dettaglio_node` dict, with its optional `dettaglio` of maturity
grandchildren; an empty list models the absent key). -/
structure DettaglioNode where
  voce_canonica : String
  voce_originale : String
  valore : ℚ
  from_ni : Bool
  dettaglio : List ScadenzaChild
deriving DecidableEq

/-- The target node of an enrichment section as `_integrate_ni_data` reads and
writes it: its value, its optional `_dettaglio_scadenza` pair (the `entro` and
`oltre` values retrieved with default 0), its children dict, and the
`enriched_from_ni` flag. -/
structure ParentNode where
  valore : ℚ
  scadenza : Option (ℚ × ℚ)
  dettaglio : List (String × DettaglioNode)
  enriched_from_ni : Bool
deriving DecidableEq

/-- Python dict assignment for the children dict of a parent node. -/
def insert_child : List (String × DettaglioNode) → String → DettaglioNode →
    List (String × DettaglioNode)
  | [], k, v => [(k, v)]
  | p :: rest, k, v => if p.1 = k then (k, v) :: rest else p :: insert_child rest k v

/-- The `dettaglio_node` built for one NI row, including the optional
entro/oltre grandchildren added when the respective value is positive. -/
def build_dettaglio_node (item : NIRow) : DettaglioNode :=
  { voce_canonica := item.voce_canonica
    voce_originale := item.voce_originale
    valore := item.valore
    from_ni := true
    dettaglio :=
      (if item.valore_entro > 0 then
        [⟨item.voce_canonica ++ " esigibili entro l\x27esercizio successivo",
          item.valore_entro⟩]
      else []) ++
      (if item.valore_oltre > 0 then
        [⟨item.voce_canonica ++ " esigibili oltre l\x27esercizio successivo",
          item.valore_oltre⟩]
      else []) }

/-- The replacement children dict: one `dettaglio_node` assigned per NI row in
row order. -/
def build_children (ni : List NIRow) : List (String × DettaglioNode) :=
  ni.foldl (fun acc item => insert_child acc item.voce_canonica (build_dettaglio_node item)) []

/-- `schema_total` of `_integrate_ni_data`: the node's value, falling back to
`entro + oltre` of `_dettaglio_scadenza` when the value is zero and the
temporal detail is present. -/
def schema_total (node : ParentNode) : ℚ :=
  if node.valore = 0 then
    match node.scadenza with
    | some s => s.1 + s.2
    | none => node.valore
  else node.valore

/-- `ni_total`: the sum of the matched rows' values. -/
def ni_total (ni : List NIRow) : ℚ := (ni.map NIRow.valore).sum

/-- Embedding of `_integrate_ni_data` from the totals computation onward (the
earlier `skip_validation` block for `imposte anticipate` is dead code: the
flag is unconditionally reset to `False` right after it). Returns the
success flag together with the node as left by the call. -/
def integrate_ni_data (section_name : String) (node : ParentNode) (ni : List NIRow) :
    Bool × ParentNode :=
  let st := schema_total node
  let nt := ni_total ni
  let skip_validation := section_name = "II - Crediti" ∧ st > 0 ∧ nt / st > 10
  if st > 0 ∧ ¬ skip_validation ∧ abs (st - nt) > max (abs (st * (1 / 100))) 2 then
    (false, node)
  else
    (true,
      { valore := nt
        scadenza := none
        dettaglio := build_children ni
        enriched_from_ni := true })

theorem insert_child_of_not_mem (l : List (String × DettaglioNode)) (k : String)
    (v : DettaglioNode) (h : ∀ p ∈ l, p.1 ≠ k) :
    insert_child l k v = l ++ [(k, v)] := by
  induction l with
  | nil => rfl
  | cons p rest ih =>
    have hp : p.1 ≠ k := h p (List.mem_cons_self p rest)
    simp only [insert_child, if_neg hp, List.cons_append, List.cons.injEq, true_and]
    exact ih (fun q hq => h q (List.mem_cons_of_mem p hq))

theorem build_children_aux (ni : List NIRow) :
    ∀ acc : List (String × DettaglioNode),
      (ni.map NIRow.voce_canonica).Nodup →
      (∀ p ∈ acc, p.1 ∉ ni.map NIRow.voce_canonica) →
      ni.foldl
          (fun acc item => insert_child acc item.voce_canonica (build_dettaglio_node item))
          acc =
        acc ++ ni.map (fun r => (r.voce_canonica, build_dettaglio_node r)) := by
  induction ni with
  | nil => intro acc _ _; simp
  | cons r rest ih =>
    intro acc hnd hacc
    simp only [List.map_cons, List.nodup_cons] at hnd
    have hins : insert_child acc r.voce_canonica (build_dettaglio_node r) =
        acc ++ [(r.voce_canonica, build_dettaglio_node r)] := by
      refine insert_child_of_not_mem acc _ _ (fun p hp => ?_)
      have := hacc p hp
      simp only [List.map_cons, List.mem_cons, not_or] at this
      exact this.1
    simp only [List.foldl_cons, hins]
    rw [ih (acc ++ [(r.voce_canonica, build_dettaglio_node r)]) hnd.2 ?_]
    · simp
    · intro p hp
      rcases List.mem_append.mp hp with hl | hr
      · have := hacc p hl
        simp only [List.map_cons, List.mem_cons, not_or] at this
        exact this.2
      · simp only [List.mem_singleton] at hr
        subst hr
        exact hnd.1

theorem build_children_of_nodup (ni : List NIRow)
    (h : (ni.map NIRow.voce_canonica).Nodup) :
    build_children ni = ni.map (fun r => (r.voce_canonica, build_dettaglio_node r)) := by
  simpa using build_children_aux ni [] h (by simp)

/-! ## Cascading calculations (`financial_reclassifier.py`,
`_perform_cascading_calculations`) -/

/-- The three output buckets of `_perform_cascading_calculations`
(`final_data`); the parallel detail-string buckets are not modelled. -/
structure ReclassifiedData where
  pnl : Dict
  assets : Dict
  liabilities : Dict

/-- The four Italian source lines summed into the special depreciation value. -/
def depreciation_items : List String :=
  [ "Ammortamento delle immobilizzazioni immateriali"
  , "Ammortamento delle immobilizzazioni materiali"
  , "Altre svalutazioni delle immobilizzazioni"
  , "Svalutazioni dei crediti e delle disponibilità liquide" ]

/-- Embedding of `_perform_cascading_calculations`, statement by statement in
source order. Each bucket starts as a copy of `mapped_totals` and is then
updated by the bucket's cascade formulas. -/
def perform_cascading_calculations (mapped : Dict) (flat : Dict) : ReclassifiedData :=
  -- P&L section
  let pnl0 := mapped
  let total_sales := dget pnl0 "Total Sales"
  let initial_gross_profit := dget pnl0 "GROSS PROFIT"
  let gross_profit_final := initial_gross_profit + total_sales
  let pnl1 := dset pnl0 "GROSS PROFIT" gross_profit_final
  let initial_net_op_profit := dget pnl1 "NET OP. PROFIT"
  let net_op_profit_final := initial_net_op_profit + gross_profit_final
  let pnl2 := dset pnl1 "NET OP. PROFIT" net_op_profit_final
  let pnl3 := dset pnl2 "Cost of Sales" (total_sales - gross_profit_final)
  let pnl4 := dset pnl3 "S G & A" (gross_profit_final - net_op_profit_final)
  let pre_tax_profit_final := net_op_profit_final + dget pnl4 "Interest Received"
    - dget pnl4 "Interest Paid" + dget pnl4 "Other Income/Expense"
  let pnl5 := dset pnl4 "PRE TAX PROFIT" pre_tax_profit_final
  let pnl6 := dset pnl5 "PROFIT AFTER TAX" (pre_tax_profit_final - dget pnl5 "Taxation")
  let pnl7 := dset pnl6 "Deprecation" ((depreciation_items.map (dget flat)).sum)
  -- ASSETS section
  let a0 := mapped
  let cash_equiv := dget a0 "Cash & Equivalent"
  let trade_debtors := dget a0 "Trade Debtors"
  let quick_assets_final := cash_equiv + trade_debtors
  let a1 := dset a0 "Quick Assets" quick_assets_final
  let stock_wip := dget a1 "Stock & Work in Progr."
  let tot_curr_ass_final := dget a1 "TOT CURR. ASS." + quick_assets_final + stock_wip
  let a2 := dset a1 "TOT CURR. ASS." tot_curr_ass_final
  let a3 := dset a2 "Other Current" (tot_curr_ass_final - stock_wip - quick_assets_final)
  let tangible_fixed := dget a3 "Tangible Fxed Assets"
  let intangibles := dget a3 "Intangibles"
  let goodwill := dget a3 "Goodwill"
  let tot_fix_ass_final := dget a3 "TOTAL FIX. ASS." + tangible_fixed + intangibles + goodwill
  let a4 := dset a3 "TOTAL FIX. ASS." tot_fix_ass_final
  let a5 := dset a4 "Financial/Other fix Ass"
    (tot_fix_ass_final - tangible_fixed - intangibles - goodwill)
  let a6 := dset a5 "BAL. SHEET TOT" (tot_curr_ass_final + tot_fix_ass_final)
  -- LIABILITIES section
  let l0 := mapped
  let overdrafts := dget l0 "Overdrafts & STD"
  let current_ltd := dget l0 "Current Portion LTD"
  let total_short_term_debt_final := overdrafts + current_ltd
  let l1 := dset l0 "Total Short Term Debt" total_short_term_debt_final
  let trade_creditors := dget l1 "Trade Creditors"
  let tot_curr_liab_final := dget l1 "TOT CURR. LIAB." + total_short_term_debt_final
    + trade_creditors
  let l2 := dset l1 "TOT CURR. LIAB." tot_curr_liab_final
  let l3 := dset l2 "Other Current"
    (tot_curr_liab_final - total_short_term_debt_final - trade_creditors)
  let total_ltd := dget l3 "Total Long Term Debt"
  let provisions := dget l3 "Provisions"
  let total_lt_liab_final := dget l3 "TOTAL LT LIAB" + total_ltd + provisions
  let l4 := dset l3 "TOTAL LT LIAB" total_lt_liab_final
  let l5 := dset l4 "Sub. Loan/Oth. LT" (total_lt_liab_final - total_ltd - provisions)
  let l6 := dset l5 "Liabs less net worth" (tot_curr_liab_final + total_lt_liab_final)
  let sh_funds := dget l6 "Share Holders Funds"
  let retd_earnings := dget l6 "Ret\x27d Earnings/Resv\x27s"
  let tot_net_worth_final := sh_funds + retd_earnings
  let l7 := dset l6 "TOT NET WORTH" tot_net_worth_final
  let l8 := dset l7 "BAL. SHEET TOT"
    (tot_curr_liab_final + total_lt_liab_final + tot_net_worth_final)
  { pnl := pnl7, assets := a6, liabilities := l8 }

/-- The keys the P&L cascade writes. -/
def pnl_cascade_keys : List String :=
  [ "GROSS PROFIT", "NET OP. PROFIT", "Cost of Sales", "S G & A"
  , "PRE TAX PROFIT", "PROFIT AFTER TAX", "Deprecation" ]

/-- The keys the ASSETS cascade writes. -/
def assets_cascade_keys : List String :=
  [ "Quick Assets", "TOT CURR. ASS.", "Other Current", "TOTAL FIX. ASS."
  , "Financial/Other fix Ass", "BAL. SHEET TOT" ]

/-- The keys the LIABILITIES cascade writes. -/
def liabilities_cascade_keys : List String :=
  [ "Total Short Term Debt", "TOT CURR. LIAB.", "Other Current", "TOTAL LT LIAB"
  , "Sub. Loan/Oth. LT", "Liabs less net worth", "TOT NET WORTH", "BAL. SHEET TOT" ]

end FinancialLens

namespace FinancialLens

/-- **C4** No double counting: a mapping rule with any declared child present
in the flattened data map contributes nothing to any reclassification bucket
total — the result of the mapping pass is the same as if the rule were absent
from the rule set. -/
theorem map_financial_items_skips_parent_with_children (flat : Dict)
    (pre post : List MappingRule) (r : MappingRule)
    (h : ∃ c ∈ r.children, dmem flat c = true) :
    map_financial_items (pre ++ r :: post) flat =
      map_financial_items (pre ++ post) flat := by
  unfold map_financial_items
  rw [List.foldl_append, List.foldl_append, List.foldl_cons,
    map_rule_step_skip_of_child_present flat r h]

/-- **C9** The consolidated data map keeps one entry per canonical name, and
that entry is the first item with the name unless that first item has zero
value and a later duplicate has non-zero value, in which case the first such
non-zero duplicate is kept; in particular a later zero-valued duplicate never
overwrites a stored non-zero entry (second conjunct: a non-zero first item is
always the one kept). -/
theorem build_data_map_keeps_first_unless_zero :
    (∀ (flat : List FinItem) (k : String), build_data_map flat k = kept_entry flat k) ∧
    (∀ (flat : List FinItem) (k : String) (i : FinItem),
      first_with_key flat k = some i → i.valore ≠ 0 → build_data_map flat k = some i) := by
  have hmain : ∀ (flat : List FinItem) (k : String),
      build_data_map flat k = kept_entry flat k := by
    intro flat k
    rw [build_data_map, foldl_data_map]
    rfl
  refine ⟨hmain, fun flat k i hfirst hnz => ?_⟩
  rw [hmain flat k, kept_entry, first_nonzero_of_first_with_key flat k i hfirst hnz]

/-- Witness for C9: with a non-zero item stored first and a zero-valued
duplicate after it, the first item is kept. -/
theorem build_data_map_keeps_first_unless_zero_witness :
    build_data_map [⟨"A) Crediti", 5, false⟩, ⟨"A) Crediti", 0, false⟩] "A) Crediti" =
      some ⟨"A) Crediti", 5, false⟩ :=
  build_data_map_keeps_first_unless_zero.2
    [⟨"A) Crediti", 5, false⟩, ⟨"A) Crediti", 0, false⟩] "A) Crediti"
    ⟨"A) Crediti", 5, false⟩ (by norm_num [first_with_key]) (by norm_num)

/-- **C2 (counterexample)** The claim quantifies the `>10` supplement-trust
heuristic over every enrichment section, but the source guards it with
`section_name == 'II - Crediti'`: for the Debiti section with schema total 10
and supplement total 101 (ratio 10.1 > 10) the integration is rejected
instead of trusted. -/
theorem ratio_override_counterexample :
    schema_total ⟨10, none, [], false⟩ > 0 ∧
    ni_total [⟨"Debiti verso banche", "banche", 101, 0, 0⟩] /
        schema_total ⟨10, none, [], false⟩ > 10 ∧
    (integrate_ni_data "D) Debiti" ⟨10, none, [], false⟩
        [⟨"Debiti verso banche", "banche", 101, 0, 0⟩]).1 = false := by
  refine ⟨by norm_num [schema_total], by norm_num [schema_total, ni_total], ?_⟩
  norm_num +decide [integrate_ni_data, schema_total, ni_total, max_def,
    abs_sub_comm, abs_of_nonneg]

/-- **C2 (amended)** If the node's schema total is zero the supplement is
integrated unconditionally, for every enrichment section; the `>10` ratio
override integrates without the tolerance check only in the
`'II - Crediti'` section. -/
theorem override_heuristics_amended :
    (∀ (section_name : String) (node : ParentNode) (ni : List NIRow),
      schema_total node = 0 → (integrate_ni_data section_name node ni).1 = true) ∧
    (∀ (node : ParentNode) (ni : List NIRow),
      schema_total node > 0 → ni_total ni / schema_total node > 10 →
      (integrate_ni_data "II - Crediti" node ni).1 = true) := by
  constructor
  · intro section_name node ni h
    simp [integrate_ni_data, h]
  · intro node ni h1 h2
    simp [integrate_ni_data, h1, h2]

/-- Witness for amended C2: a zero-total node in the Debiti section is
enriched unconditionally, and a Crediti node with ratio 10.1 > 10 is enriched
without the tolerance check. -/
theorem override_heuristics_amended_witness :
    (integrate_ni_data "D) Debiti" ⟨0, none, [], false⟩ []).1 = true ∧
    (integrate_ni_data "II - Crediti" ⟨10, none, [], false⟩
        [⟨"Crediti verso clienti", "clienti", 101, 0, 0⟩]).1 = true :=
  ⟨override_heuristics_amended.1 "D) Debiti" ⟨0, none, [], false⟩ []
      (by norm_num [schema_total]),
   override_heuristics_amended.2 ⟨10, none, [], false⟩
      [⟨"Crediti verso clienti", "clienti", 101, 0, 0⟩]
      (by norm_num [schema_total]) (by norm_num [schema_total, ni_total])⟩

/-- **C6** Enrichment integration is atomic and exact: when the tolerance gate
`max(schemaTotal × 1%, 2)` rejects (positive schema total, no override,
difference above tolerance) the call returns failure with the node unchanged
in every field; when it accepts, the node's value becomes the supplement
total, the enriched flag is set, and — for matched rows with distinct
canonical names, as the three-pass matcher produces — the children are
replaced by exactly one synthetic node per row and the node's value equals
the sum of its synthetic children's values. -/
theorem integrate_ni_data_atomic :
    (∀ (section_name : String) (node : ParentNode) (ni : List NIRow),
      schema_total node > 0 →
      ¬ (section_name = "II - Crediti" ∧ ni_total ni / schema_total node > 10) →
      abs (schema_total node - ni_total ni) >
        max (abs (schema_total node * (1 / 100))) 2 →
      integrate_ni_data section_name node ni = (false, node)) ∧
    (∀ (section_name : String) (node : ParentNode) (ni : List NIRow),
      (integrate_ni_data section_name node ni).1 = true →
      (integrate_ni_data section_name node ni).2.valore = ni_total ni ∧
      (integrate_ni_data section_name node ni).2.enriched_from_ni = true ∧
      ((ni.map NIRow.voce_canonica).Nodup →
        (integrate_ni_data section_name node ni).2.dettaglio =
          ni.map (fun r => (r.voce_canonica, build_dettaglio_node r)) ∧
        (integrate_ni_data section_name node ni).2.valore =
          ((integrate_ni_data section_name node ni).2.dettaglio.map
            (fun c => c.2.valore)).sum)) := by
  constructor
  · intro section_name node ni h1 h2 h3
    simp only [integrate_ni_data]
    rw [if_pos ⟨h1, fun hs => h2 ⟨hs.1, hs.2.2⟩, h3⟩]
  · intro section_name node ni htrue
    simp only [integrate_ni_data] at htrue ⊢
    by_cases hc : schema_total node > 0 ∧
        ¬ (section_name = "II - Crediti" ∧ schema_total node > 0 ∧
            ni_total ni / schema_total node > 10) ∧
        abs (schema_total node - ni_total ni) >
          max (abs (schema_total node * (1 / 100))) 2
    · rw [if_pos hc] at htrue
      simp at htrue
    · rw [if_neg hc]
      refine ⟨rfl, rfl, fun hnd => ?_⟩
      refine ⟨by simp [build_children_of_nodup ni hnd], ?_⟩
      simp only [build_children_of_nodup ni hnd, List.map_map, ni_total]
      rfl

/-- Witness for C6: a rejected integration (difference 100 above tolerance 2)
returns failure with the node untouched; an accepted integration (difference
0) sets the node's value to the supplement total. -/
theorem integrate_ni_data_atomic_witness :
    integrate_ni_data "D) Debiti" ⟨100, none, [], false⟩
        [⟨"Debiti verso banche", "banche", 200, 0, 0⟩] =
      (false, ⟨100, none, [], false⟩) ∧
    (integrate_ni_data "II - Crediti" ⟨100, none, [], false⟩
        [⟨"Crediti verso clienti", "clienti", 100, 60, 40⟩]).2.valore =
      ni_total [⟨"Crediti verso clienti", "clienti", 100, 60, 40⟩] :=
  ⟨integrate_ni_data_atomic.1 "D) Debiti" ⟨100, none, [], false⟩
      [⟨"Debiti verso banche", "banche", 200, 0, 0⟩]
      (by norm_num [schema_total])
      (fun h => absurd h.1 (by decide))
      (by norm_num [schema_total, ni_total, max_def, abs_sub_comm, abs_of_nonneg]),
   (integrate_ni_data_atomic.2 "II - Crediti" ⟨100, none, [], false⟩
      [⟨"Crediti verso clienti", "clienti", 100, 60, 40⟩]
      (by norm_num +decide [integrate_ni_data, schema_total, ni_total, max_def,
        abs_of_nonneg])).1⟩

/-- **C3** Context-switch finalization: the builder pops parents until the
stack top matches the expected parent or the stack empties; every popped
parent with zero value (and not flagged enriched) ends with its value equal to
the sum of its buffered children's values, the buffer being discarded; and in
the concrete stream P(0), C1(40), C2(60), X (expected parent: section root),
P is finalized to 100 during the processing of X and X attaches to the root. -/
theorem context_switch_finalization :
    (∀ (e : Option String) (st : List OpenParent),
      (pop_until e st).1 = [] ∨
        ∃ top rest, (pop_until e st).1 = top :: rest ∧
          e = some top.item.voce_canonica) ∧
    (∀ p : OpenParent, p.item.valore = 0 → p.item.enriched_from_ni = false →
      (process_completed_parent p).valore = (p.buffer.map FinItem.valore).sum) ∧
    ((run_stream scenario_cfg scenario_items []).2 = [⟨"P", 100, false⟩] ∧
      (run_stream scenario_cfg scenario_items []).1 = []) := by
  refine ⟨pop_until_shape, ?_, ?_⟩
  · intro p h0 _
    unfold process_completed_parent
    by_cases hb : p.buffer = [] <;> simp [hb, h0]
  · constructor <;>
      norm_num +decide [run_stream, process_financial_item, pop_until, record_pop,
        reflect_in_parent, process_completed_parent, scenario_cfg, scenario_items]

/-- Witness for C3: a popped parent with zero value, no enriched flag and two
buffered children of values 40 and 60 is finalized to their sum. -/
theorem context_switch_finalization_witness :
    (process_completed_parent
        ⟨⟨"P", 0, false⟩, [⟨"C1", 40, false⟩, ⟨"C2", 60, false⟩]⟩).valore =
      ([⟨"C1", 40, false⟩, ⟨"C2", 60, false⟩].map FinItem.valore).sum :=
  context_switch_finalization.2.1
    ⟨⟨"P", 0, false⟩, [⟨"C1", 40, false⟩, ⟨"C2", 60, false⟩]⟩ rfl rfl

/-- **C7** No dangling parents: for any configuration and any stream of
classified items, after end-of-document finalization the open-parent stack is
empty, and the number of finalization events (those during processing plus
those at the end) equals the number of parents pushed — every pushed parent is
popped and processed exactly once. -/
theorem no_dangling_parents (cfg : HierarchyConfig) (items : List FinItem) :
    (finalize_hierarchy_context (run_stream cfg items []).1).1 = [] ∧
    ((run_stream cfg items []).2 ++
        (finalize_hierarchy_context (run_stream cfg items []).1).2).length =
      (items.filter (fun it => cfg.is_potential_parent it.voce_canonica)).length := by
  refine ⟨finalize_fst _, ?_⟩
  have h1 := run_stream_length cfg items []
  have h2 := finalize_snd_length (run_stream cfg items []).1
  simp only [List.length_nil, Nat.zero_add] at h1
  simp only [List.length_append, h2]
  omega

/-- **C5** The P&L cascade: final GROSS PROFIT, NET OP. PROFIT, Cost of Sales,
S G & A, PRE TAX PROFIT, PROFIT AFTER TAX and the depreciation sum follow the
stated formulas for every mapped-totals map, and the concrete scenario
(Total Sales 1000, mapped GROSS PROFIT −600, mapped NET OP. PROFIT −150)
yields 400 / 250 / 600 / 150. -/
theorem cascade_pnl_formulas :
    (∀ mapped flat : Dict,
      let F := perform_cascading_calculations mapped flat
      dget F.pnl "GROSS PROFIT" = dget mapped "GROSS PROFIT" + dget mapped "Total Sales" ∧
      dget F.pnl "NET OP. PROFIT" = dget mapped "NET OP. PROFIT" + dget F.pnl "GROSS PROFIT" ∧
      dget F.pnl "Cost of Sales" = dget mapped "Total Sales" - dget F.pnl "GROSS PROFIT" ∧
      dget F.pnl "S G & A" = dget F.pnl "GROSS PROFIT" - dget F.pnl "NET OP. PROFIT" ∧
      dget F.pnl "PRE TAX PROFIT" = dget F.pnl "NET OP. PROFIT"
        + dget mapped "Interest Received" - dget mapped "Interest Paid"
        + dget mapped "Other Income/Expense" ∧
      dget F.pnl "PROFIT AFTER TAX" = dget F.pnl "PRE TAX PROFIT" - dget mapped "Taxation" ∧
      dget F.pnl "Deprecation" = (depreciation_items.map (dget flat)).sum) ∧
    (let F := perform_cascading_calculations
        [("Total Sales", 1000), ("GROSS PROFIT", -600), ("NET OP. PROFIT", -150)] [];
      dget F.pnl "GROSS PROFIT" = 400 ∧ dget F.pnl "NET OP. PROFIT" = 250 ∧
      dget F.pnl "Cost of Sales" = 600 ∧ dget F.pnl "S G & A" = 150) := by
  constructor
  · intro mapped flat
    simp only [perform_cascading_calculations]
    refine ⟨?_, ?_, ?_, ?_, ?_, ?_, ?_⟩ <;>
      simp +decide [dget_dset_self, dget_dset_ne]
  · norm_num +decide [perform_cascading_calculations, dget, dset]

/-- **C10** Before the bucket-specific cascade formulas run, each of the three
buckets is seeded with the whole mapped-totals map: any mapped key that is not
one of the bucket's cascade-written keys keeps its mapped binding in that
bucket of the returned reclassified data. -/
theorem cascade_seeds_all_buckets (mapped flat : Dict) (k : String) :
    (k ∉ pnl_cascade_keys →
      dlookup (perform_cascading_calculations mapped flat).pnl k = dlookup mapped k) ∧
    (k ∉ assets_cascade_keys →
      dlookup (perform_cascading_calculations mapped flat).assets k = dlookup mapped k) ∧
    (k ∉ liabilities_cascade_keys →
      dlookup (perform_cascading_calculations mapped flat).liabilities k = dlookup mapped k) := by
  refine ⟨fun h => ?_, fun h => ?_, fun h => ?_⟩ <;>
    simp only [pnl_cascade_keys, assets_cascade_keys, liabilities_cascade_keys,
      List.mem_cons, List.not_mem_nil, or_false, not_or] at h
  · obtain ⟨h1, h2, h3, h4, h5, h6, h7⟩ := h
    simp only [perform_cascading_calculations]
    rw [dlookup_dset_ne _ _ _ _ h7, dlookup_dset_ne _ _ _ _ h6,
      dlookup_dset_ne _ _ _ _ h5, dlookup_dset_ne _ _ _ _ h4,
      dlookup_dset_ne _ _ _ _ h3, dlookup_dset_ne _ _ _ _ h2,
      dlookup_dset_ne _ _ _ _ h1]
  · obtain ⟨h1, h2, h3, h4, h5, h6⟩ := h
    simp only [perform_cascading_calculations]
    rw [dlookup_dset_ne _ _ _ _ h6, dlookup_dset_ne _ _ _ _ h5,
      dlookup_dset_ne _ _ _ _ h4, dlookup_dset_ne _ _ _ _ h3,
      dlookup_dset_ne _ _ _ _ h2, dlookup_dset_ne _ _ _ _ h1]
  · obtain ⟨h1, h2, h3, h4, h5, h6, h7, h8⟩ := h
    simp only [perform_cascading_calculations]
    rw [dlookup_dset_ne _ _ _ _ h8, dlookup_dset_ne _ _ _ _ h7,
      dlookup_dset_ne _ _ _ _ h6, dlookup_dset_ne _ _ _ _ h5,
      dlookup_dset_ne _ _ _ _ h4, dlookup_dset_ne _ _ _ _ h3,
      dlookup_dset_ne _ _ _ _ h2, dlookup_dset_ne _ _ _ _ h1]

/-- Witness for C10: the mapped key "Orphan Key" survives untouched into all
three buckets. -/
theorem cascade_seeds_all_buckets_witness :
    dlookup (perform_cascading_calculations [("Orphan Key", 7)] []).pnl "Orphan Key" =
        dlookup [("Orphan Key", 7)] "Orphan Key" ∧
    dlookup (perform_cascading_calculations [("Orphan Key", 7)] []).assets "Orphan Key" =
        dlookup [("Orphan Key", 7)] "Orphan Key" ∧
    dlookup (perform_cascading_calculations [("Orphan Key", 7)] []).liabilities "Orphan Key" =
        dlookup [("Orphan Key", 7)] "Orphan Key" :=
  ⟨(cascade_seeds_all_buckets [("Orphan Key", 7)] [] "Orphan Key").1 (by decide),
   (cascade_seeds_all_buckets [("Orphan Key", 7)] [] "Orphan Key").2.1 (by decide),
   (cascade_seeds_all_buckets [("Orphan Key", 7)] [] "Orphan Key").2.2 (by decide)⟩

/-- Witness for C4: a parent rule for "A) Totale" with child "A.1" present in
the flat data is ignored by the mapping pass. -/
theorem map_financial_items_skips_parent_with_children_witness :
    map_financial_items
        ([] ++ ⟨"A) Totale", some "Target", some "+", ["A.1"]⟩ ::
          [⟨"A.1", some "Target", some "+", []⟩])
        [("A) Totale", 100), ("A.1", 40)] =
      map_financial_items ([] ++ [⟨"A.1", some "Target", some "+", []⟩])
        [("A) Totale", 100), ("A.1", 40)] :=
  map_financial_items_skips_parent_with_children
    [("A) Totale", 100), ("A.1", 40)] []
    [⟨"A.1", some "Target", some "+", []⟩]
    ⟨"A) Totale", some "Target", some "+", ["A.1"]⟩
    ⟨"A.1", by simp, by decide⟩

end FinancialLens
